import Mathlib

/-!
Verification of the rle_morph morphology CLI
(src/examples/opencv/example.cpp).

The program parses two positional arguments (input image path, morph
operation), loads a color image, applies dilation or erosion with a
rectangular 11x11 structuring element anchored at its center, and writes
the result to "output.png".

The dilate/erode primitives and the structuring-element constructor come
from the external image-processing library; the calling code in src/ fixes
their parameters.  Their pixel semantics are modelled here from the spec
(section 4.3): dilate takes the per-channel maximum and erode the
per-channel minimum over the structuring-element footprint, out-of-bounds
kernel positions being neutral (the library's default border value is the
identity of max resp. min, so border positions do not contribute).
-/

namespace RleMorph

/-- Kernel radius, `const int morph_size = 5;` in example.cpp line 14. -/
def morph_size : Nat := 5

/-- Shape argument of the structuring-element constructor; the program only
uses the rectangular shape. -/
inductive MorphShape where
  | MORPH_RECT
deriving DecidableEq

/-- Width/height pair, mirroring cv::Size as used at example.cpp lines 57, 71. -/
structure Size where
  width : Nat
  height : Nat
deriving DecidableEq

/-- Anchor point, mirroring cv::Point (integer coordinates) as used at
example.cpp lines 58, 72. -/
structure Point where
  x : Int
  y : Int
deriving DecidableEq

/-- A structuring element: shape, kernel size and anchor. -/
structure StructuringElement where
  shape : MorphShape
  size : Size
  anchor : Point
deriving DecidableEq

/-- Modelled from the spec: the library's rectangular structuring-element
constructor (`getStructuringElement`, called at example.cpp lines 56-58 and
70-72) packages the requested shape, size and anchor; for MORPH_RECT every
kernel position belongs to the footprint. -/
def getStructuringElement (shape : MorphShape) (size : Size) (anchor : Point) :
    StructuringElement :=
  { shape := shape, size := size, anchor := anchor }

/-- An in-memory image: dimensions, channel count, and per-channel pixel
values (row, column, channel).  Mirrors the cv::Mat produced by
`imread(..., IMREAD_COLOR)`. -/
structure Img where
  rows : Nat
  cols : Nat
  channels : Nat
  px : Nat → Nat → Nat → Nat

/-- The in-bounds positions of the source image covered by the structuring
element footprint when its anchor sits on pixel (r, c).  Kernel position
(i / width, i % width) reaches source pixel
(r + i / width - anchor.y, c + i % width - anchor.x); positions falling
outside the image are dropped (the library's default border value is neutral
for the max resp. min). -/
def neighborhood (el : StructuringElement) (rows cols : Nat) (r c : Nat) :
    List (Nat × Nat) :=
  (List.range (el.size.height * el.size.width)).filterMap fun i =>
    let r2 : Int := (r : Int) + (i / el.size.width : Nat) - el.anchor.y
    let c2 : Int := (c : Int) + (i % el.size.width : Nat) - el.anchor.x
    if 0 ≤ r2 ∧ r2 < (rows : Int) ∧ 0 ≤ c2 ∧ c2 < (cols : Int) then
      some (r2.toNat, c2.toNat)
    else none

/-- Maximum of a list of pixel values; the empty footprint yields the
library's neutral border value for dilation (minimal value 0). -/
def listMax : List Nat → Nat
  | [] => 0
  | x :: t => t.foldl max x

/-- Minimum of a list of pixel values; the empty footprint yields the
library's neutral border value for erosion (maximal 8-bit value 255). -/
def listMin : List Nat → Nat
  | [] => 255
  | x :: t => t.foldl min x

/-- Modelled from the spec: one output pixel of the library's `dilate`
(called at example.cpp line 60): the per-channel maximum of the source
pixels under the structuring-element footprint. -/
def dilatePx (el : StructuringElement) (src : Img) (r c ch : Nat) : Nat :=
  listMax ((neighborhood el src.rows src.cols r c).map fun p => src.px p.1 p.2 ch)

/-- Modelled from the spec: one output pixel of the library's `erode`
(called at example.cpp line 74): the per-channel minimum of the source
pixels under the structuring-element footprint. -/
def erodePx (el : StructuringElement) (src : Img) (r c ch : Nat) : Nat :=
  listMin ((neighborhood el src.rows src.cols r c).map fun p => src.px p.1 p.2 ch)

/-- The structuring element built inside `Dilation` (example.cpp lines
56-58): rectangular, side 2*morph_size+1 = 11, anchored at
(morph_size, morph_size) = (5, 5). -/
def dilationElement : StructuringElement :=
  getStructuringElement MorphShape.MORPH_RECT
    (Size.mk (2 * morph_size + 1) (2 * morph_size + 1))
    (Point.mk (morph_size : Int) (morph_size : Int))

/-- The structuring element built inside `Erosion` (example.cpp lines
70-72): identical construction to the one in `Dilation`. -/
def erosionElement : StructuringElement :=
  getStructuringElement MorphShape.MORPH_RECT
    (Size.mk (2 * morph_size + 1) (2 * morph_size + 1))
    (Point.mk (morph_size : Int) (morph_size : Int))

/-- `Mat Dilation(Mat src)` (example.cpp lines 53-65): builds its
structuring element and dilates the source; the result has the source's
dimensions and channel count.  The timing side effect is handled in `main`. -/
def Dilation (src : Img) : Img :=
  { rows := src.rows, cols := src.cols, channels := src.channels,
    px := fun r c ch => dilatePx dilationElement src r c ch }

/-- `Mat Erosion(Mat src)` (example.cpp lines 67-79): builds its
structuring element and erodes the source. -/
def Erosion (src : Img) : Img :=
  { rows := src.rows, cols := src.cols, channels := src.channels,
    px := fun r c ch => erodePx erosionElement src r c ch }

/-- Result of the command-line parsing step: either the recorded parse
errors, or the two positional arguments `@input` and `@morph`.  `@morph`
is optional (`?` in the keys string, example.cpp line 11) and `none` means
it was omitted on the command line. -/
inductive ParseResult where
  | err (errors : List String)
  | ok (input : String) (morph : Option String)

/-- The environment of one program invocation: program name (argv[0]), the
outcome of argument parsing, the image loader (`samples::findFile` composed
with `imread`, returning none when the loaded Mat is empty), and the
measured wall-clock durations reported by the timing instrumentation. -/
structure Env where
  progName : String
  parse : ParseResult
  findLoad : String → Option Img
  dilateDur : Nat
  erodeDur : Nat

/-- Observable outcome of a run: exit code, lines printed to standard
output, and the file written (name and image), if any. -/
structure RunResult where
  exitCode : Nat
  stdout : List String
  outputFile : Option (String × Img)

/-- `void printUsage(char *prog_name)` (example.cpp lines 18-21). -/
def printUsage (prog_name : String) : String :=
  "Usage: " ++ prog_name ++ " <Input image> [erode|dilate]"

/-- `int main(int argc, char **argv)` (example.cpp lines 23-51).
If the parser reports errors it prints them and returns 1 (no usage
message in that branch).  Otherwise `@morph` defaults to "dilate"
(keys string, example.cpp line 11), the image is loaded and checked for
emptiness before the operation string is examined, the selected transform
runs (printing its timing line), and the result is written to
"output.png". -/
def main (env : Env) : RunResult :=
  match env.parse with
  | ParseResult.err msgs =>
      { exitCode := 1, stdout := msgs, outputFile := none }
  | ParseResult.ok input morphArg =>
      let morph_type := morphArg.getD "dilate"
      match env.findLoad input with
      | none =>
          { exitCode := 1,
            stdout := ["Could not open or find the image!\n", printUsage env.progName],
            outputFile := none }
      | some src =>
          if morph_type = "dilate" then
            { exitCode := 0,
              stdout := ["Time taken to dilate: " ++ toString env.dilateDur ++ " microseconds"],
              outputFile := some ("output.png", Dilation src) }
          else if morph_type = "erode" then
            { exitCode := 0,
              stdout := ["Time taken to erode: " ++ toString env.erodeDur ++ " microseconds"],
              outputFile := some ("output.png", Erosion src) }
          else
            { exitCode := 1,
              stdout := ["Invalid morph operation!\n", printUsage env.progName],
              outputFile := none }

/-- A small concrete image used by the witnesses. -/
def testImg : Img :=
  { rows := 4, cols := 4, channels := 3, px := fun _ _ _ => 9 }

/-- A loader that succeeds on every path, used by witnesses. -/
def testLoad : String → Option Img := fun _ => some testImg

/-- A loader that fails on every path, used by witnesses and
counterexamples. -/
def noLoad : String → Option Img := fun _ => none

/-- An invocation with operation "foo" whose input image fails to load. -/
def envFoo : Env :=
  { progName := "prog", parse := ParseResult.ok "img.png" (some "foo"),
    findLoad := noLoad, dilateDur := 0, erodeDur := 0 }

/-- An invocation with operation "Dilate" (wrong case) whose input image
fails to load. -/
def envDilateCase : Env :=
  { progName := "prog", parse := ParseResult.ok "img.png" (some "Dilate"),
    findLoad := noLoad, dilateDur := 0, erodeDur := 0 }

/-- An invocation rejected by the argument parser. -/
def envParseErr : Env :=
  { progName := "prog", parse := ParseResult.err ["missing required argument"],
    findLoad := testLoad, dilateDur := 0, erodeDur := 0 }

/-! Helper lemmas about folded maxima and minima. -/

theorem le_foldl_max (l : List Nat) (a : Nat) : a ≤ l.foldl max a := by
  induction l generalizing a with
  | nil => exact Nat.le_refl a
  | cons x t ih => exact Nat.le_trans (Nat.le_max_left a x) (ih (max a x))

theorem mem_le_foldl_max (l : List Nat) (a v : Nat) (h : v ∈ l) : v ≤ l.foldl max a := by
  induction l generalizing a with
  | nil => cases h
  | cons x t ih =>
      rcases List.mem_cons.mp h with rfl | hv
      · exact Nat.le_trans (Nat.le_max_right a v) (le_foldl_max t (max a v))
      · exact ih (max a x) hv

theorem foldl_max_le (l : List Nat) (a b : Nat) (ha : a ≤ b)
    (h : ∀ x ∈ l, x ≤ b) : l.foldl max a ≤ b := by
  induction l generalizing a with
  | nil => exact ha
  | cons x t ih =>
      exact ih (max a x) (Nat.max_le.mpr ⟨ha, h x (List.mem_cons_self x t)⟩)
        (fun y hy => h y (List.mem_cons_of_mem x hy))

theorem foldl_min_le (l : List Nat) (a : Nat) : l.foldl min a ≤ a := by
  induction l generalizing a with
  | nil => exact Nat.le_refl a
  | cons x t ih => exact Nat.le_trans (ih (min a x)) (Nat.min_le_left a x)

theorem foldl_min_le_mem (l : List Nat) (a v : Nat) (h : v ∈ l) : l.foldl min a ≤ v := by
  induction l generalizing a with
  | nil => cases h
  | cons x t ih =>
      rcases List.mem_cons.mp h with rfl | hv
      · exact Nat.le_trans (foldl_min_le t (min a v)) (Nat.min_le_right a v)
      · exact ih (min a x) hv

theorem le_foldl_min (l : List Nat) (a b : Nat) (ha : b ≤ a)
    (h : ∀ x ∈ l, b ≤ x) : b ≤ l.foldl min a := by
  induction l generalizing a with
  | nil => exact ha
  | cons x t ih =>
      exact ih (min a x) (Nat.le_min.mpr ⟨ha, h x (List.mem_cons_self x t)⟩)
        (fun y hy => h y (List.mem_cons_of_mem x hy))

theorem mem_le_listMax (l : List Nat) (v : Nat) (h : v ∈ l) : v ≤ listMax l := by
  cases l with
  | nil => cases h
  | cons x t =>
      rcases List.mem_cons.mp h with rfl | hv
      · exact le_foldl_max t v
      · exact mem_le_foldl_max t x v hv

theorem listMin_le_mem (l : List Nat) (v : Nat) (h : v ∈ l) : listMin l ≤ v := by
  cases l with
  | nil => cases h
  | cons x t =>
      rcases List.mem_cons.mp h with rfl | hv
      · exact foldl_min_le t v
      · exact foldl_min_le_mem t x v hv

theorem listMax_all_eq (l : List Nat) (v : Nat) (hmem : v ∈ l)
    (hall : ∀ x ∈ l, x = v) : listMax l = v := by
  cases l with
  | nil => cases hmem
  | cons x t =>
      apply Nat.le_antisymm
      · exact foldl_max_le t x v (Nat.le_of_eq (hall x (List.mem_cons_self x t)))
          (fun y hy => Nat.le_of_eq (hall y (List.mem_cons_of_mem x hy)))
      · exact mem_le_listMax (x :: t) v hmem

theorem listMin_all_eq (l : List Nat) (v : Nat) (hmem : v ∈ l)
    (hall : ∀ x ∈ l, x = v) : listMin l = v := by
  cases l with
  | nil => cases hmem
  | cons x t =>
      apply Nat.le_antisymm
      · exact listMin_le_mem (x :: t) v hmem
      · exact le_foldl_min t x v (Nat.le_of_eq (hall x (List.mem_cons_self x t)).symm)
          (fun y hy => Nat.le_of_eq (hall y (List.mem_cons_of_mem x hy)).symm)

/-! Lemmas about the 11x11 centered footprint. -/

theorem mem_neighborhood_center (rows cols r c : Nat) (hr : r < rows) (hc : c < cols) :
    (r, c) ∈ neighborhood dilationElement rows cols r c := by
  unfold neighborhood dilationElement getStructuringElement morph_size
  rw [List.mem_filterMap]
  refine ⟨60, ?_, ?_⟩
  · rw [List.mem_range]; norm_num
  · norm_num
    intro h
    exact absurd (h hr) (Nat.not_le.mpr hc)

theorem neighborhood_mem_lt (el : StructuringElement) (rows cols r c p q : Nat)
    (h : (p, q) ∈ neighborhood el rows cols r c) : p < rows ∧ q < cols := by
  unfold neighborhood at h
  rw [List.mem_filterMap] at h
  obtain ⟨i, _, hf⟩ := h
  dsimp only at hf
  split at hf
  · rename_i hcond
    obtain ⟨h1, h2, h3, h4⟩ := hcond
    obtain ⟨hp, hq⟩ := Prod.mk.injEq .. ▸ Option.some.injEq .. ▸ hf
    constructor <;> omega
  · exact absurd hf (by simp)

theorem dilatePx_ge (src : Img) (r c ch : Nat) (hr : r < src.rows) (hc : c < src.cols) :
    src.px r c ch ≤ dilatePx dilationElement src r c ch := by
  apply mem_le_listMax
  rw [List.mem_map]
  exact ⟨(r, c), mem_neighborhood_center src.rows src.cols r c hr hc, rfl⟩

theorem erodePx_le (src : Img) (r c ch : Nat) (hr : r < src.rows) (hc : c < src.cols) :
    erodePx erosionElement src r c ch ≤ src.px r c ch := by
  apply listMin_le_mem
  rw [List.mem_map]
  have he : erosionElement = dilationElement := rfl
  exact ⟨(r, c), he ▸ mem_neighborhood_center src.rows src.cols r c hr hc, rfl⟩

/-! Branch lemmas for `main`. -/

theorem main_parse_err (p : String) (msgs : List String) (f : String → Option Img)
    (d e : Nat) :
    main ⟨p, ParseResult.err msgs, f, d, e⟩ = ⟨1, msgs, none⟩ := rfl

theorem main_load_none (p input : String) (m : Option String) (f : String → Option Img)
    (d e : Nat) (hload : f input = none) :
    main ⟨p, ParseResult.ok input m, f, d, e⟩ =
      ⟨1, ["Could not open or find the image!\n", printUsage p], none⟩ := by
  unfold main
  simp [hload]

theorem main_dilate (p input : String) (m : Option String) (f : String → Option Img)
    (d e : Nat) (img : Img) (hload : f input = some img)
    (hm : m.getD "dilate" = "dilate") :
    main ⟨p, ParseResult.ok input m, f, d, e⟩ =
      ⟨0, ["Time taken to dilate: " ++ toString d ++ " microseconds"],
        some ("output.png", Dilation img)⟩ := by
  unfold main
  simp [hload, hm]

theorem main_erode (p input : String) (m : Option String) (f : String → Option Img)
    (d e : Nat) (img : Img) (hload : f input = some img)
    (hm : m.getD "dilate" = "erode") :
    main ⟨p, ParseResult.ok input m, f, d, e⟩ =
      ⟨0, ["Time taken to erode: " ++ toString e ++ " microseconds"],
        some ("output.png", Erosion img)⟩ := by
  unfold main
  simp [hload, hm]

theorem main_invalid (p input : String) (m : Option String) (f : String → Option Img)
    (d e : Nat) (img : Img) (hload : f input = some img)
    (h1 : m.getD "dilate" ≠ "dilate") (h2 : m.getD "dilate" ≠ "erode") :
    main ⟨p, ParseResult.ok input m, f, d, e⟩ =
      ⟨1, ["Invalid morph operation!\n", printUsage p], none⟩ := by
  unfold main
  simp [hload, h1, h2]

/-! The claims. -/

/-- Claim C1: for every invocation that parses, loads a valid color image
and selects operation dilate, every pixel of the written output image is
greater than or equal to the corresponding input pixel at the same
location, per channel (extensivity of the max filter over the centered
11x11 structuring element). -/
theorem dilation_extensive (p input : String) (m : Option String)
    (f : String → Option Img) (d e : Nat) (img : Img)
    (hload : f input = some img) (hm : m.getD "dilate" = "dilate")
    (r c ch : Nat) (hr : r < img.rows) (hc : c < img.cols) :
    ∃ dst,
      (main ⟨p, ParseResult.ok input m, f, d, e⟩).outputFile =
          some ("output.png", dst) ∧
        img.px r c ch ≤ dst.px r c ch := by
  refine ⟨Dilation img, ?_, ?_⟩
  · rw [main_dilate p input m f d e img hload hm]
  · exact dilatePx_ge img r c ch hr hc

/-- Witness for C1 at a concrete invocation. -/
theorem dilation_extensive_witness :
    testLoad "img.png" = some testImg ∧
      (Option.some "dilate").getD "dilate" = "dilate" ∧
      0 < testImg.rows ∧ 0 < testImg.cols ∧
      ∃ dst,
        (main ⟨"prog", ParseResult.ok "img.png" (some "dilate"), testLoad, 7, 7⟩).outputFile =
            some ("output.png", dst) ∧
          testImg.px 0 0 0 ≤ dst.px 0 0 0 :=
  ⟨rfl, rfl, by decide, by decide,
    dilation_extensive "prog" "img.png" (some "dilate") testLoad 7 7 testImg rfl rfl
      0 0 0 (by decide) (by decide)⟩

/-- Claim C2: for every invocation that parses, loads a valid color image
and selects operation erode, every pixel of the written output image is
less than or equal to the corresponding input pixel at the same location,
per channel (anti-extensivity of the min filter over the centered 11x11
structuring element). -/
theorem erosion_antiextensive (p input : String) (m : Option String)
    (f : String → Option Img) (d e : Nat) (img : Img)
    (hload : f input = some img) (hm : m.getD "dilate" = "erode")
    (r c ch : Nat) (hr : r < img.rows) (hc : c < img.cols) :
    ∃ dst,
      (main ⟨p, ParseResult.ok input m, f, d, e⟩).outputFile =
          some ("output.png", dst) ∧
        dst.px r c ch ≤ img.px r c ch := by
  refine ⟨Erosion img, ?_, ?_⟩
  · rw [main_erode p input m f d e img hload hm]
  · exact erodePx_le img r c ch hr hc

/-- Witness for C2 at a concrete invocation. -/
theorem erosion_antiextensive_witness :
    testLoad "img.png" = some testImg ∧
      (Option.some "erode").getD "dilate" = "erode" ∧
      0 < testImg.rows ∧ 0 < testImg.cols ∧
      ∃ dst,
        (main ⟨"prog", ParseResult.ok "img.png" (some "erode"), testLoad, 7, 7⟩).outputFile =
            some ("output.png", dst) ∧
          dst.px 0 0 0 ≤ testImg.px 0 0 0 :=
  ⟨rfl, rfl, by decide, by decide,
    erosion_antiextensive "prog" "img.png" (some "erode") testLoad 7 7 testImg rfl rfl
      0 0 0 (by decide) (by decide)⟩

/-- Claim C3: omitting the operation argument produces exactly the same
observable behavior (exit code, output lines, written file) as passing
"dilate" explicitly, for every program name, input path, loader and
measured durations. -/
theorem default_operation_eq_dilate (p input : String) (f : String → Option Img)
    (d e : Nat) :
    main ⟨p, ParseResult.ok input none, f, d, e⟩ =
      main ⟨p, ParseResult.ok input (some "dilate"), f, d, e⟩ := rfl

/-- Claim C4, counterexample: with operation "foo" but an input image that
fails to load, the program exits 1 without output yet never prints
"Invalid morph operation!", because the load check precedes the operation
dispatch. -/
theorem invalid_op_counterexample :
    (main envFoo).exitCode = 1 ∧
      "Invalid morph operation!\n" ∉ (main envFoo).stdout ∧
      (main envFoo).outputFile = none := by
  refine ⟨rfl, ?_, rfl⟩
  decide

/-- Claim C4, amended: for every invocation that parses and whose input
image loads successfully, an operation string other than "dilate" and
"erode" makes the program print "Invalid morph operation!" and the usage
message, exit with code 1, and write no output file. -/
theorem invalid_op_spec (p input s : String) (f : String → Option Img)
    (d e : Nat) (img : Img) (hload : f input = some img)
    (h1 : s ≠ "dilate") (h2 : s ≠ "erode") :
    (main ⟨p, ParseResult.ok input (some s), f, d, e⟩).exitCode = 1 ∧
      "Invalid morph operation!\n" ∈ (main ⟨p, ParseResult.ok input (some s), f, d, e⟩).stdout ∧
      printUsage p ∈ (main ⟨p, ParseResult.ok input (some s), f, d, e⟩).stdout ∧
      (main ⟨p, ParseResult.ok input (some s), f, d, e⟩).outputFile = none := by
  rw [main_invalid p input (some s) f d e img hload (by simpa using h1) (by simpa using h2)]
  exact ⟨rfl, by simp, by simp, rfl⟩

/-- Witness for the amended C4 at a concrete invocation. -/
theorem invalid_op_spec_witness :
    testLoad "img.png" = some testImg ∧ "foo" ≠ "dilate" ∧ "foo" ≠ "erode" ∧
      (main ⟨"prog", ParseResult.ok "img.png" (some "foo"), testLoad, 0, 0⟩).exitCode = 1 ∧
      "Invalid morph operation!\n" ∈
        (main ⟨"prog", ParseResult.ok "img.png" (some "foo"), testLoad, 0, 0⟩).stdout ∧
      printUsage "prog" ∈
        (main ⟨"prog", ParseResult.ok "img.png" (some "foo"), testLoad, 0, 0⟩).stdout ∧
      (main ⟨"prog", ParseResult.ok "img.png" (some "foo"), testLoad, 0, 0⟩).outputFile = none :=
  ⟨rfl, by decide, by decide,
    invalid_op_spec "prog" "img.png" "foo" testLoad 0 0 testImg rfl (by decide) (by decide)⟩

/-- Claim C5: for every invocation that parses but whose input path does
not resolve to a decodable image, the program prints "Could not open or
find the image!", prints the usage message, exits with code 1, and writes
no output file. -/
theorem load_failure_spec (p input : String) (m : Option String)
    (f : String → Option Img) (d e : Nat) (hload : f input = none) :
    (main ⟨p, ParseResult.ok input m, f, d, e⟩).exitCode = 1 ∧
      "Could not open or find the image!\n" ∈ (main ⟨p, ParseResult.ok input m, f, d, e⟩).stdout ∧
      printUsage p ∈ (main ⟨p, ParseResult.ok input m, f, d, e⟩).stdout ∧
      (main ⟨p, ParseResult.ok input m, f, d, e⟩).outputFile = none := by
  rw [main_load_none p input m f d e hload]
  exact ⟨rfl, by simp, by simp, rfl⟩

/-- Witness for C5 at a concrete invocation. -/
theorem load_failure_spec_witness :
    noLoad "missing.png" = none ∧
      (main ⟨"prog", ParseResult.ok "missing.png" none, noLoad, 0, 0⟩).exitCode = 1 ∧
      "Could not open or find the image!\n" ∈
        (main ⟨"prog", ParseResult.ok "missing.png" none, noLoad, 0, 0⟩).stdout ∧
      printUsage "prog" ∈
        (main ⟨"prog", ParseResult.ok "missing.png" none, noLoad, 0, 0⟩).stdout ∧
      (main ⟨"prog", ParseResult.ok "missing.png" none, noLoad, 0, 0⟩).outputFile = none :=
  ⟨rfl, load_failure_spec "prog" "missing.png" none noLoad 0 0 rfl⟩

/-- Claim C6: both transforms use a rectangular structuring element of side
length 11 = 2*morph_size+1 anchored at its center (5, 5); each transform
has its own construction (mirroring the local `element` built inside
`Dilation` and inside `Erosion`). -/
theorem structuring_element_spec :
    dilationElement =
        getStructuringElement MorphShape.MORPH_RECT (Size.mk 11 11) (Point.mk 5 5) ∧
      erosionElement =
        getStructuringElement MorphShape.MORPH_RECT (Size.mk 11 11) (Point.mk 5 5) ∧
      dilationElement.size.width = 2 * morph_size + 1 ∧
      dilationElement.size.height = 2 * morph_size + 1 ∧
      dilationElement.anchor = Point.mk (morph_size : Int) (morph_size : Int) ∧
      (∀ src, Dilation src =
        ⟨src.rows, src.cols, src.channels, fun r c ch => dilatePx dilationElement src r c ch⟩) ∧
      (∀ src, Erosion src =
        ⟨src.rows, src.cols, src.channels, fun r c ch => erodePx erosionElement src r c ch⟩) :=
  ⟨by decide, by decide, rfl, rfl, rfl, fun _ => rfl, fun _ => rfl⟩

/-- Claim C7: on every successful run (image loads, operation is dilate or
erode), the program exits 0 and writes the transformed image to the fixed
filename "output.png", with the same dimensions and channel count as the
input. -/
theorem success_output_spec (p input : String) (m : Option String)
    (f : String → Option Img) (d e : Nat) (img : Img)
    (hload : f input = some img)
    (hop : m.getD "dilate" = "dilate" ∨ m.getD "dilate" = "erode") :
    (main ⟨p, ParseResult.ok input m, f, d, e⟩).exitCode = 0 ∧
      ∃ dst,
        (main ⟨p, ParseResult.ok input m, f, d, e⟩).outputFile =
            some ("output.png", dst) ∧
          dst.rows = img.rows ∧ dst.cols = img.cols ∧ dst.channels = img.channels := by
  rcases hop with hm | hm
  · rw [main_dilate p input m f d e img hload hm]
    exact ⟨rfl, Dilation img, rfl, rfl, rfl, rfl⟩
  · rw [main_erode p input m f d e img hload hm]
    exact ⟨rfl, Erosion img, rfl, rfl, rfl, rfl⟩

/-- Witness for C7 at a concrete invocation (operation omitted, so the
default "dilate" applies). -/
theorem success_output_spec_witness :
    testLoad "img.png" = some testImg ∧
      ((Option.none).getD "dilate" = "dilate" ∨ (Option.none).getD "dilate" = "erode") ∧
      (main ⟨"prog", ParseResult.ok "img.png" none, testLoad, 3, 4⟩).exitCode = 0 ∧
      ∃ dst,
        (main ⟨"prog", ParseResult.ok "img.png" none, testLoad, 3, 4⟩).outputFile =
            some ("output.png", dst) ∧
          dst.rows = testImg.rows ∧ dst.cols = testImg.cols ∧ dst.channels = testImg.channels :=
  ⟨rfl, Or.inl rfl,
    success_output_spec "prog" "img.png" none testLoad 3 4 testImg rfl (Or.inl rfl)⟩

/-- Claim C8, counterexample: when the argument parser rejects the
invocation, the program prints only the parser's error messages and exits
1; the usage message is not printed in that branch. -/
theorem parse_error_counterexample :
    (main envParseErr).exitCode = 1 ∧
      (main envParseErr).stdout = ["missing required argument"] ∧
      printUsage "prog" ∉ (main envParseErr).stdout := by
  refine ⟨rfl, rfl, ?_⟩
  decide

/-- Claim C8, amended: on a parse failure the program prints exactly the
parser's recorded error messages to standard output, exits with code 1,
and writes no output file; the usage message is not among what this branch
itself prints. -/
theorem parse_error_spec (p : String) (msgs : List String)
    (f : String → Option Img) (d e : Nat) :
    main ⟨p, ParseResult.err msgs, f, d, e⟩ = ⟨1, msgs, none⟩ := rfl

/-- Claim C9: a constant (solid-color) image is a fixed point of both
transforms: the output has identical dimensions and channel count and
every pixel keeps the same per-channel constant value. -/
theorem constant_image_fixed_point (img : Img) (color : Nat → Nat)
    (hconst : ∀ r, r < img.rows → ∀ c, c < img.cols → ∀ ch, img.px r c ch = color ch) :
    (Dilation img).rows = img.rows ∧ (Dilation img).cols = img.cols ∧
      (Dilation img).channels = img.channels ∧
      (Erosion img).rows = img.rows ∧ (Erosion img).cols = img.cols ∧
      (Erosion img).channels = img.channels ∧
      ∀ r, r < img.rows → ∀ c, c < img.cols → ∀ ch,
        (Dilation img).px r c ch = color ch ∧ (Erosion img).px r c ch = color ch := by
  refine ⟨rfl, rfl, rfl, rfl, rfl, rfl, ?_⟩
  intro r hr c hc ch
  have hall : ∀ x ∈ (neighborhood dilationElement img.rows img.cols r c).map
      (fun p => img.px p.1 p.2 ch), x = color ch := by
    intro x hx
    rw [List.mem_map] at hx
    obtain ⟨⟨pp, qq⟩, hmem, hval⟩ := hx
    obtain ⟨hp, hq⟩ := neighborhood_mem_lt dilationElement img.rows img.cols r c pp qq hmem
    rw [← hval]
    exact hconst pp hp qq hq ch
  have hmem : color ch ∈ (neighborhood dilationElement img.rows img.cols r c).map
      (fun p => img.px p.1 p.2 ch) := by
    rw [List.mem_map]
    exact ⟨(r, c), mem_neighborhood_center img.rows img.cols r c hr hc,
      hconst r hr c hc ch⟩
  have he : erosionElement = dilationElement := rfl
  constructor
  · exact listMax_all_eq _ (color ch) hmem hall
  · show erodePx erosionElement img r c ch = color ch
    unfold erodePx
    rw [he]
    exact listMin_all_eq _ (color ch) hmem hall

/-- Witness for C9 at a concrete constant image. -/
theorem constant_image_fixed_point_witness :
    (∀ r, r < testImg.rows → ∀ c, c < testImg.cols → ∀ ch, testImg.px r c ch = 9) ∧
      (Dilation testImg).rows = testImg.rows ∧ (Dilation testImg).cols = testImg.cols ∧
      (Dilation testImg).channels = testImg.channels ∧
      (Erosion testImg).rows = testImg.rows ∧ (Erosion testImg).cols = testImg.cols ∧
      (Erosion testImg).channels = testImg.channels ∧
      ∀ r, r < testImg.rows → ∀ c, c < testImg.cols → ∀ ch,
        (Dilation testImg).px r c ch = 9 ∧ (Erosion testImg).px r c ch = 9 :=
  ⟨fun _ _ _ _ _ => rfl,
    constant_image_fixed_point testImg (fun _ => 9) (fun _ _ _ _ _ => rfl)⟩

/-- Claim C10, counterexample: with operation "Dilate" (wrong case) but an
input image that fails to load, the program exits 1 without output yet
does not take the invalid-operation branch (its message is not printed),
because the load check precedes the operation dispatch. -/
theorem case_sensitive_counterexample :
    (main envDilateCase).exitCode = 1 ∧
      "Invalid morph operation!\n" ∉ (main envDilateCase).stdout ∧
      (main envDilateCase).outputFile = none := by
  refine ⟨rfl, ?_, rfl⟩
  decide

/-- Claim C10, amended: operation-name matching is exact and
case-sensitive: for every invocation that parses and whose image loads,
any operation string not character-for-character equal to "dilate" or
"erode" takes the invalid-operation branch (its message is the first line
printed), exits with code 1, and writes no output file. -/
theorem case_sensitive_spec (p input s : String) (f : String → Option Img)
    (d e : Nat) (img : Img) (hload : f input = some img)
    (h1 : s ≠ "dilate") (h2 : s ≠ "erode") :
    (main ⟨p, ParseResult.ok input (some s), f, d, e⟩).exitCode = 1 ∧
      (main ⟨p, ParseResult.ok input (some s), f, d, e⟩).stdout.head? =
        some "Invalid morph operation!\n" ∧
      (main ⟨p, ParseResult.ok input (some s), f, d, e⟩).outputFile = none := by
  rw [main_invalid p input (some s) f d e img hload (by simpa using h1) (by simpa using h2)]
  exact ⟨rfl, rfl, rfl⟩

/-- Witness for the amended C10 at the concrete case-variant "Dilate". -/
theorem case_sensitive_spec_witness :
    testLoad "img.png" = some testImg ∧ "Dilate" ≠ "dilate" ∧ "Dilate" ≠ "erode" ∧
      (main ⟨"prog", ParseResult.ok "img.png" (some "Dilate"), testLoad, 0, 0⟩).exitCode = 1 ∧
      (main ⟨"prog", ParseResult.ok "img.png" (some "Dilate"), testLoad, 0, 0⟩).stdout.head? =
        some "Invalid morph operation!\n" ∧
      (main ⟨"prog", ParseResult.ok "img.png" (some "Dilate"), testLoad, 0, 0⟩).outputFile = none :=
  ⟨rfl, by decide, by decide,
    case_sensitive_spec "prog" "img.png" "Dilate" testLoad 0 0 testImg rfl
      (by decide) (by decide)⟩

end RleMorph
